import Mathlib

/-!
Verification of the install-convergence engine of the debian-crossgrading
tool.  The definitions below are shallow embeddings of the Python source in
`debian_crossgrader/crossgrader.py` and `debian_crossgrader/utils/cmd.py`.
External effects (the filesystem, subprocess exit codes, dpkg diagnostic
output, operator input) are modelled as explicit parameters; Python `set`
values are modelled as `Finset String`; a failing `assert` and a raised
exception are modelled with `Except`.
-/

namespace Crossgrader

/-- Python's `str.strip()` with no argument: remove leading and trailing
whitespace. -/
def pyStrip (s : String) : String :=
  ⟨((s.data.dropWhile Char.isWhitespace).reverse.dropWhile Char.isWhitespace).reverse⟩

/-- Python's `str.endswith(suffix)`. -/
def pyEndsWith (s suffix : String) : Bool :=
  suffix.data.isSuffixOf s.data

/-- The fixed sentinel line dpkg prints before listing failing units
(matched literally in `get_dpkg_failures`, crossgrader.py). -/
def sentinelLine : String := "Errors were encountered while processing:"

/-- Shallow embedding of the body of `get_dpkg_failures`
(crossgrader.py lines 375-395).  `isfile` models `os.path.isfile`;
`capture` models the `capture_packages` flag; `debs` and `packages` are the
accumulating result sets.  A failing `assert os.path.isfile(line)` is
modelled as `Except.error` carrying the offending stripped line.  Setting
`capture_packages = True` when the stripped line equals the sentinel (and
leaving it unchanged otherwise) is written as the explicit `if` on the
sentinel in the non-capturing branch; in the capturing branch the flag is
already `True` and stays `True`. -/
def get_dpkg_failures (isfile : String → Bool) :
    List String → Bool → Finset String → Finset String →
    Except String (Finset String × Finset String)
  | [], _, debs, packages => .ok (debs, packages)
  | line :: rest, capture, debs, packages =>
    let l := pyStrip line
    if capture then
      if pyEndsWith l ".deb" then
        if isfile l then
          get_dpkg_failures isfile rest true (insert l debs) packages
        else
          .error l
      else
        get_dpkg_failures isfile rest true debs (insert l packages)
    else if l = sentinelLine then
      get_dpkg_failures isfile rest true debs packages
    else
      get_dpkg_failures isfile rest false debs packages

/-- `get_dpkg_failures` as invoked by `_install_and_configure`: the scan of
`dpkg_errs` starts with `capture_packages = False` and both result sets
empty. -/
def run_get_dpkg_failures (isfile : String → Bool) (dpkg_errs : List String) :
    Except String (Finset String × Finset String) :=
  get_dpkg_failures isfile dpkg_errs false ∅ ∅

/-- The lines strictly after the first line whose stripped form is the
sentinel; `[]` when no line strips to the sentinel. -/
def postSentinel : List String → List String
  | [] => []
  | line :: rest => if pyStrip line = sentinelLine then rest else postSentinel rest

lemma postSentinel_of_no_sentinel (lines : List String)
    (h : ∀ l ∈ lines, pyStrip l ≠ sentinelLine) : postSentinel lines = [] := by
  induction lines with
  | nil => rfl
  | cons line rest ih =>
    have hl := h line (by simp)
    simp only [postSentinel, if_neg hl]
    exact ih fun l hm => h l (by simp [hm])

lemma get_dpkg_failures_false_eq (isfile : String → Bool) (lines : List String)
    (debs packages : Finset String) :
    get_dpkg_failures isfile lines false debs packages =
      get_dpkg_failures isfile (postSentinel lines) true debs packages := by
  induction lines with
  | nil => rfl
  | cons line rest ih =>
    by_cases hl : pyStrip line = sentinelLine
    · simp [get_dpkg_failures, postSentinel, hl]
    · simp only [get_dpkg_failures, postSentinel, if_neg hl, if_false]
      exact ih

lemma get_dpkg_failures_true_ok (isfile : String → Bool) (lines : List String)
    (debs packages D P : Finset String)
    (h : get_dpkg_failures isfile lines true debs packages = .ok (D, P)) :
    D = debs ∪ ((lines.map pyStrip).filter (fun l => pyEndsWith l ".deb")).toFinset ∧
    P = packages ∪ ((lines.map pyStrip).filter (fun l => !pyEndsWith l ".deb")).toFinset := by
  induction lines generalizing debs packages with
  | nil =>
    simp only [get_dpkg_failures, Except.ok.injEq, Prod.mk.injEq] at h
    simp [h.1, h.2]
  | cons line rest ih =>
    by_cases hend : pyEndsWith (pyStrip line) ".deb"
    · by_cases hfile : isfile (pyStrip line)
      · simp only [get_dpkg_failures, hend, hfile, if_true] at h
        obtain ⟨hD, hP⟩ := ih _ _ h
        constructor
        · rw [hD]
          simp [hend, Finset.insert_union, Finset.union_insert]
        · rw [hP]
          simp [hend]
      · simp [get_dpkg_failures, hend, hfile] at h
    · simp only [get_dpkg_failures, hend, if_true, if_false, Bool.false_eq_true] at h
      obtain ⟨hD, hP⟩ := ih _ _ h
      constructor
      · rw [hD]
        simp [hend]
      · rw [hP]
        simp [hend, Finset.insert_union, Finset.union_insert]

lemma get_dpkg_failures_true_error_iff (isfile : String → Bool)
    (lines : List String) (debs packages : Finset String) :
    (∃ e, get_dpkg_failures isfile lines true debs packages = .error e) ↔
      ∃ l ∈ lines.map pyStrip, pyEndsWith l ".deb" = true ∧ isfile l = false := by
  induction lines generalizing debs packages with
  | nil => simp [get_dpkg_failures]
  | cons line rest ih =>
    by_cases hend : pyEndsWith (pyStrip line) ".deb"
    · by_cases hfile : isfile (pyStrip line)
      · simp only [get_dpkg_failures, hend, hfile, if_true]
        rw [ih]
        simp only [List.map_cons, List.mem_cons]
        constructor
        · rintro ⟨l, hm, h1, h2⟩
          exact ⟨l, Or.inr hm, h1, h2⟩
        · rintro ⟨l, hm, h1, h2⟩
          rcases hm with hm | hm
          · subst hm
            simp [hfile] at h2
          · exact ⟨l, hm, h1, h2⟩
      · simp only [get_dpkg_failures, hend, hfile, if_true, Bool.false_eq_true, if_false]
        constructor
        · intro _
          refine ⟨pyStrip line, by simp, hend, by simpa using hfile⟩
        · intro _
          exact ⟨pyStrip line, rfl⟩
    · simp only [get_dpkg_failures, hend, if_true, if_false, Bool.false_eq_true]
      rw [ih]
      simp only [List.map_cons, List.mem_cons]
      constructor
      · rintro ⟨l, hm, h1, h2⟩
        exact ⟨l, Or.inr hm, h1, h2⟩
      · rintro ⟨l, hm, h1, h2⟩
        rcases hm with hm | hm
        · subst hm
          simp [hend] at h1
        · exact ⟨l, hm, h1, h2⟩

lemma get_dpkg_failures_true_error_val (isfile : String → Bool)
    (lines : List String) (debs packages : Finset String) (e : String)
    (h : get_dpkg_failures isfile lines true debs packages = .error e) :
    pyEndsWith e ".deb" = true ∧ isfile e = false ∧ e ∈ lines.map pyStrip := by
  induction lines generalizing debs packages with
  | nil => simp [get_dpkg_failures] at h
  | cons line rest ih =>
    by_cases hend : pyEndsWith (pyStrip line) ".deb"
    · by_cases hfile : isfile (pyStrip line)
      · simp only [get_dpkg_failures, hend, hfile, if_true] at h
        obtain ⟨h1, h2, h3⟩ := ih _ _ h
        exact ⟨h1, h2, by simp [h3]⟩
      · simp only [get_dpkg_failures, hend, hfile, if_true, Bool.false_eq_true,
          if_false, Except.error.injEq] at h
        subst h
        exact ⟨hend, by simpa using hfile, by simp⟩
    · simp only [get_dpkg_failures, hend, if_true, if_false, Bool.false_eq_true] at h
      obtain ⟨h1, h2, h3⟩ := ih _ _ h
      exact ⟨h1, h2, by simp [h3]⟩

/-- C3: the failure parser classifies no line before the sentinel line
`Errors were encountered while processing:` — a stream with no sentinel
line yields two empty sets regardless of content — and classifies every
stripped line after the sentinel as a failed artifact if it ends with
`.deb` (and names an existing file) and as a failed package name otherwise;
the two returned sets are disjoint. -/
theorem C3_failure_parser_classifies_only_after_sentinel
    (isfile : String → Bool) (lines : List String) (D P : Finset String) :
    ((∀ l ∈ lines, pyStrip l ≠ sentinelLine) →
      run_get_dpkg_failures isfile lines = .ok (∅, ∅)) ∧
    (run_get_dpkg_failures isfile lines = .ok (D, P) →
      D = (((postSentinel lines).map pyStrip).filter
            (fun l => pyEndsWith l ".deb")).toFinset ∧
      P = (((postSentinel lines).map pyStrip).filter
            (fun l => !pyEndsWith l ".deb")).toFinset ∧
      Disjoint D P) := by
  constructor
  · intro h
    rw [run_get_dpkg_failures, get_dpkg_failures_false_eq,
      postSentinel_of_no_sentinel lines h]
    rfl
  · intro h
    rw [run_get_dpkg_failures, get_dpkg_failures_false_eq] at h
    obtain ⟨hD, hP⟩ := get_dpkg_failures_true_ok _ _ _ _ _ _ h
    simp only [Finset.empty_union] at hD hP
    refine ⟨hD, hP, ?_⟩
    rw [hD, hP, Finset.disjoint_left]
    intro a haD haP
    simp only [List.mem_toFinset, List.mem_filter] at haD haP
    rw [haD.2] at haP
    simp at haP

/-- Witness for C3 at a concrete captured stream: a preamble line, the
sentinel, one artifact line and one package-name line. -/
theorem C3_failure_parser_witness :
    (insert "a.deb" ∅ : Finset String) =
      (((postSentinel ["dpkg: error processing archive a.deb",
          "Errors were encountered while processing:", " a.deb",
          "pkgname:amd64"]).map pyStrip).filter
        (fun l => pyEndsWith l ".deb")).toFinset ∧
    (insert "pkgname:amd64" ∅ : Finset String) =
      (((postSentinel ["dpkg: error processing archive a.deb",
          "Errors were encountered while processing:", " a.deb",
          "pkgname:amd64"]).map pyStrip).filter
        (fun l => !pyEndsWith l ".deb")).toFinset ∧
    Disjoint (insert "a.deb" ∅ : Finset String)
      (insert "pkgname:amd64" ∅ : Finset String) :=
  (C3_failure_parser_classifies_only_after_sentinel (fun _ => true)
    ["dpkg: error processing archive a.deb",
     "Errors were encountered while processing:", " a.deb", "pkgname:amd64"]
    (insert "a.deb" ∅) (insert "pkgname:amd64" ∅)).2 (by rfl)

/-- C8: the failure parser aborts with a failed assertion if and only if
some line after the sentinel ends with `.deb` but does not name an existing
file; such a line is never silently classified (the aborting line itself
ends with `.deb` and fails the existence check). -/
theorem C8_failure_parser_assert_iff_missing_deb
    (isfile : String → Bool) (lines : List String) :
    ((∃ e, run_get_dpkg_failures isfile lines = .error e) ↔
      ∃ l ∈ (postSentinel lines).map pyStrip,
        pyEndsWith l ".deb" = true ∧ isfile l = false) ∧
    (∀ e, run_get_dpkg_failures isfile lines = .error e →
      pyEndsWith e ".deb" = true ∧ isfile e = false ∧
      e ∈ (postSentinel lines).map pyStrip) := by
  constructor
  · rw [run_get_dpkg_failures, get_dpkg_failures_false_eq]
    exact get_dpkg_failures_true_error_iff isfile (postSentinel lines) ∅ ∅
  · intro e h
    rw [run_get_dpkg_failures, get_dpkg_failures_false_eq] at h
    exact get_dpkg_failures_true_error_val _ _ _ _ _ h

/-- Witness for C8 at a concrete captured stream: after the sentinel, a
line shaped like an artifact path whose file does not exist makes the
parser abort. -/
theorem C8_failure_parser_assert_witness :
    ∃ e, run_get_dpkg_failures (fun _ => false)
      ["Errors were encountered while processing:", "ghost.deb"] = .error e :=
  (C8_failure_parser_assert_iff_missing_deb (fun _ => false)
    ["Errors were encountered while processing:", "ghost.deb"]).1.mpr
    ⟨"ghost.deb", by decide, by decide, rfl⟩

/-- Result of `_install_configure_loop`, with the artifact files the loop
deleted via `os.remove` threaded through in deletion order.  `converged` is
the normal return (the Python function returns the `failed_packages`
variable, which is still `None` when the loop body never ran); `stalled` is
the raised `PackageInstallationError` carrying `failed_debs`;
`assertFailed` models a failing
`assert len(failed_debs) <= len(debs_remaining)`. -/
inductive LoopResult where
  | converged (failed_packages : Option (List String)) (deleted : List String)
  | stalled (failed_debs : List String) (deleted : List String)
  | assertFailed (deleted : List String)
  deriving DecidableEq, Repr

/-- Shallow embedding of `_install_configure_loop` (crossgrader.py lines
452-479).  `pass_fn` models one call of `_install_and_configure` on the
remaining artifact list, returning that pass's
`(failed_debs, failed_packages)`; the deletion of every remaining artifact
not in `failed_debs` is recorded by appending to `deleted`.  The remaining
two arguments are the `failed_packages` variable (initially `None`) and the
deletion log (initially empty). -/
def install_configure_loop (pass_fn : List String → List String × List String) :
    List String → Option (List String) → List String → LoopResult
  | [], failed_packages, deleted => .converged failed_packages deleted
  | deb :: rest, _, deleted =>
    if h1 : (deb :: rest).length < (pass_fn (deb :: rest)).1.length then
      .assertFailed (deleted ++ (deb :: rest).filter (fun d => d ∉ (pass_fn (deb :: rest)).1))
    else if h2 : (pass_fn (deb :: rest)).1.length = (deb :: rest).length then
      .stalled (pass_fn (deb :: rest)).1
        (deleted ++ (deb :: rest).filter (fun d => d ∉ (pass_fn (deb :: rest)).1))
    else
      install_configure_loop pass_fn (pass_fn (deb :: rest)).1
        (some (pass_fn (deb :: rest)).2)
        (deleted ++ (deb :: rest).filter (fun d => d ∉ (pass_fn (deb :: rest)).1))
  termination_by debs _ _ => debs.length
  decreasing_by
    omega

lemma install_configure_loop_nil (pass_fn : List String → List String × List String)
    (fp : Option (List String)) (del : List String) :
    install_configure_loop pass_fn [] fp del = .converged fp del :=
  install_configure_loop.eq_1 pass_fn fp del

lemma install_configure_loop_cons (pass_fn : List String → List String × List String)
    (deb : String) (rest : List String) (fp : Option (List String))
    (del : List String) :
    install_configure_loop pass_fn (deb :: rest) fp del =
      if (deb :: rest).length < (pass_fn (deb :: rest)).1.length then
        .assertFailed (del ++ (deb :: rest).filter (fun d => d ∉ (pass_fn (deb :: rest)).1))
      else if (pass_fn (deb :: rest)).1.length = (deb :: rest).length then
        .stalled (pass_fn (deb :: rest)).1
          (del ++ (deb :: rest).filter (fun d => d ∉ (pass_fn (deb :: rest)).1))
      else
        install_configure_loop pass_fn (pass_fn (deb :: rest)).1
          (some (pass_fn (deb :: rest)).2)
          (del ++ (deb :: rest).filter (fun d => d ∉ (pass_fn (deb :: rest)).1)) := by
  rw [install_configure_loop.eq_2]
  by_cases h1 : (deb :: rest).length < (pass_fn (deb :: rest)).1.length
  · rw [dif_pos h1, if_pos h1]
  · rw [dif_neg h1, if_neg h1]
    by_cases h2 : (pass_fn (deb :: rest)).1.length = (deb :: rest).length
    · rw [dif_pos h2, if_pos h2]
    · rw [dif_neg h2, if_neg h2]

/-- Fuel-indexed variant of `install_configure_loop`, used to state that
the loop needs at most one iteration per initial artifact: `none` means the
fuel ran out before the loop finished. -/
def install_configure_loop_fuel
    (pass_fn : List String → List String × List String) :
    Nat → List String → Option (List String) → List String → Option LoopResult
  | 0, _, _, _ => none
  | _ + 1, [], failed_packages, deleted => some (.converged failed_packages deleted)
  | fuel + 1, deb :: rest, _, deleted =>
    let failed := pass_fn (deb :: rest)
    let deleted2 := deleted ++ (deb :: rest).filter (fun d => d ∉ failed.1)
    if (deb :: rest).length < failed.1.length then
      some (.assertFailed deleted2)
    else if failed.1.length = (deb :: rest).length then
      some (.stalled failed.1 deleted2)
    else
      install_configure_loop_fuel pass_fn fuel failed.1 (some failed.2) deleted2

lemma install_configure_loop_fuel_sufficient
    (pass_fn : List String → List String × List String) :
    ∀ fuel debs fp del, debs.length < fuel →
      install_configure_loop_fuel pass_fn fuel debs fp del =
        some (install_configure_loop pass_fn debs fp del) := by
  intro fuel
  induction fuel with
  | zero => intro debs fp del h; omega
  | succ n ih =>
    intro debs fp del h
    match debs with
    | [] => rw [install_configure_loop_nil]; rfl
    | deb :: rest =>
      rw [install_configure_loop_fuel, install_configure_loop_cons]
      by_cases h1 : (deb :: rest).length < (pass_fn (deb :: rest)).1.length
      · rw [if_pos h1, if_pos h1]
      · rw [if_neg h1, if_neg h1]
        by_cases h2 : (pass_fn (deb :: rest)).1.length = (deb :: rest).length
        · rw [if_pos h2, if_pos h2]
        · rw [if_neg h2, if_neg h2]
          apply ih
          omega

/-- C1: for every non-empty artifact list the install/configure loop
terminates — fuel one greater than the artifact count is always enough,
because each continuing iteration strictly shrinks the remaining list — and
an iteration whose failed-artifact count equals its remaining count stops
the loop at once, raising `PackageInstallationError` with exactly that
iteration's failed artifact list. -/
theorem C1_install_configure_loop_terminates
    (pass_fn : List String → List String × List String)
    (debs : List String) (fp : Option (List String)) (del : List String)
    (h : debs ≠ []) :
    install_configure_loop_fuel pass_fn (debs.length + 1) debs fp del =
      some (install_configure_loop pass_fn debs fp del) ∧
    ((pass_fn debs).1.length = debs.length →
      install_configure_loop pass_fn debs fp del =
        .stalled (pass_fn debs).1
          (del ++ debs.filter (fun d => d ∉ (pass_fn debs).1))) := by
  constructor
  · exact install_configure_loop_fuel_sufficient pass_fn _ debs fp del (by omega)
  · intro hstall
    match debs, h with
    | deb :: rest, _ =>
      rw [install_configure_loop_cons]
      have h1 : ¬ (deb :: rest).length < (pass_fn (deb :: rest)).1.length := by
        omega
      simp [h1, hstall]

/-- Witness for C1: a single artifact with a pass that fails it
(no progress) terminates in one iteration with a stall carrying that
artifact; nothing is deleted. -/
theorem C1_install_configure_loop_witness :
    install_configure_loop_fuel (fun d => (d, [])) 2 ["a.deb"] none [] =
      some (install_configure_loop (fun d => (d, [])) ["a.deb"] none []) ∧
    ((fun (d : List String) => (d, ([] : List String))) ["a.deb"]
        |>.1.length = ["a.deb"].length →
      install_configure_loop (fun d => (d, [])) ["a.deb"] none [] =
        .stalled ["a.deb"] ([] ++ ["a.deb"].filter (fun d => d ∉ ["a.deb"]))) :=
  C1_install_configure_loop_terminates (fun d => (d, [])) ["a.deb"] none []
    (by decide)

lemma install_configure_loop_fuel_converged_cases
    (pass_fn : List String → List String × List String) :
    ∀ fuel debs fp del fpOut delOut,
      install_configure_loop_fuel pass_fn fuel debs fp del =
        some (.converged fpOut delOut) →
      (debs = [] ∧ fpOut = fp) ∨
      ∃ d, d ≠ [] ∧ (pass_fn d).1 = [] ∧ fpOut = some (pass_fn d).2 := by
  intro fuel
  induction fuel with
  | zero => intro debs fp del fpOut delOut h; simp [install_configure_loop_fuel] at h
  | succ n ih =>
    intro debs fp del fpOut delOut h
    match debs with
    | [] =>
      simp only [install_configure_loop_fuel, Option.some.injEq,
        LoopResult.converged.injEq] at h
      exact Or.inl ⟨rfl, h.1.symm⟩
    | deb :: rest =>
      rw [install_configure_loop_fuel] at h
      by_cases h1 : (deb :: rest).length < (pass_fn (deb :: rest)).1.length
      · rw [if_pos h1] at h
        simp at h
      · rw [if_neg h1] at h
        by_cases h2 : (pass_fn (deb :: rest)).1.length = (deb :: rest).length
        · rw [if_pos h2] at h
          simp at h
        · rw [if_neg h2] at h
          rcases ih _ _ _ _ _ h with ⟨hnil, hfp⟩ | ⟨d, hd⟩
          · exact Or.inr ⟨deb :: rest, by simp, hnil, by rw [hfp]⟩
          · exact Or.inr ⟨d, hd⟩

/-- C2 amended (proved form): when the loop converges after at least one
iteration, the returned value is `some` of the failed package names of the
final iteration alone — the pass whose failed-artifact list was empty;
when the artifact list was empty from the start the initial value of the
`failed_packages` variable is returned unchanged. -/
theorem C2_amended_converged_returns_final_pass_failures
    (pass_fn : List String → List String × List String)
    (debs : List String) (fp fpOut : Option (List String))
    (del delOut : List String)
    (h : install_configure_loop pass_fn debs fp del = .converged fpOut delOut) :
    (debs = [] ∧ fpOut = fp) ∨
    ∃ d, d ≠ [] ∧ (pass_fn d).1 = [] ∧ fpOut = some (pass_fn d).2 := by
  apply install_configure_loop_fuel_converged_cases pass_fn (debs.length + 1)
    debs fp del fpOut delOut
  rw [install_configure_loop_fuel_sufficient pass_fn _ debs fp del (by omega), h]

/-- The pass behaviour refuting C2 as stated: with two artifacts the pass
fails artifact `b.deb` and package name `p`; with one artifact it fails no
artifact but reports package name `q`. -/
def cexPass : List String → List String × List String :=
  fun debs => if debs.length = 2 then (["b.deb"], ["p"]) else ([], ["q"])

/-- C2 counterexample: under `cexPass` the loop on `[a.deb, b.deb]` runs two
iterations, observing failed package name `p` in iteration 1 and `q` in
iteration 2, yet returns only `[q]` — not the union of all failed names
across iterations, which would also contain `p`. -/
theorem C2_counterexample_not_union_across_iterations :
    install_configure_loop cexPass ["a.deb", "b.deb"] none [] =
      .converged (some ["q"]) ["a.deb", "b.deb"] ∧
    (cexPass ["a.deb", "b.deb"]).2 = ["p"] ∧
    (cexPass ["b.deb"]).2 = ["q"] ∧
    "p" ∉ (["q"] : List String) := by
  refine ⟨?_, by decide, by decide, by decide⟩
  have hs := install_configure_loop_fuel_sufficient cexPass 3
    ["a.deb", "b.deb"] none [] (by decide)
  have hv : install_configure_loop_fuel cexPass 3 ["a.deb", "b.deb"] none [] =
      some (.converged (some ["q"]) ["a.deb", "b.deb"]) := by decide
  rw [hv] at hs
  exact (Option.some.inj hs).symm

/-- Witness for the amended C2 at a concrete input: a single artifact whose
pass fails nothing and reports package name `q`; the loop converges and
returns exactly that final pass's failed names. -/
theorem C2_amended_witness :
    ((["x.deb"] : List String) = [] ∧
      (some ["q"] : Option (List String)) = none) ∨
    ∃ d, d ≠ [] ∧
      ((fun (_ : List String) => (([] : List String), ["q"])) d).1 = [] ∧
      (some ["q"] : Option (List String)) =
        some ((fun (_ : List String) => (([] : List String), ["q"])) d).2 :=
  C2_amended_converged_returns_final_pass_failures
    (fun _ => ([], ["q"])) ["x.deb"] none (some ["q"]) [] ["x.deb"]
    (by
      rw [install_configure_loop_cons]
      norm_num
      exact install_configure_loop_nil _ _ _)

/-- The deletion log of a loop outcome. -/
def LoopResult.deletedLog : LoopResult → List String
  | .converged _ d => d
  | .stalled _ d => d
  | .assertFailed d => d

/-- The successive values of `debs_remaining` at the top of each executed
iteration of `_install_configure_loop`; when an iteration makes no progress
(or over-reports failures) it is the last entry. -/
def loopTrace (pass_fn : List String → List String × List String) :
    List String → List (List String)
  | [] => []
  | deb :: rest =>
    if h : (pass_fn (deb :: rest)).1.length < (deb :: rest).length then
      (deb :: rest) :: loopTrace pass_fn (pass_fn (deb :: rest)).1
    else
      [deb :: rest]
  termination_by debs => debs.length

lemma install_configure_loop_deleted_aux
    (pass_fn : List String → List String × List String) :
    ∀ n debs, debs.length ≤ n → ∀ fp del,
      (install_configure_loop pass_fn debs fp del).deletedLog =
        del ++ ((loopTrace pass_fn debs).map
          (fun r => r.filter (fun d => d ∉ (pass_fn r).1))).flatten := by
  intro n
  induction n with
  | zero =>
    intro debs hlen fp del
    match debs with
    | [] => simp [install_configure_loop_nil, loopTrace, LoopResult.deletedLog]
  | succ n ih =>
    intro debs hlen fp del
    match debs with
    | [] => simp [install_configure_loop_nil, loopTrace, LoopResult.deletedLog]
    | deb :: rest =>
      rw [install_configure_loop_cons, loopTrace.eq_2]
      by_cases h1 : (deb :: rest).length < (pass_fn (deb :: rest)).1.length
      · have hnp : ¬ (pass_fn (deb :: rest)).1.length < (deb :: rest).length := by
          omega
        rw [if_pos h1, dif_neg hnp]
        simp [LoopResult.deletedLog]
      · rw [if_neg h1]
        by_cases h2 : (pass_fn (deb :: rest)).1.length = (deb :: rest).length
        · have hnp : ¬ (pass_fn (deb :: rest)).1.length < (deb :: rest).length := by
            omega
          rw [if_pos h2, dif_neg hnp]
          simp [LoopResult.deletedLog]
        · have hp : (pass_fn (deb :: rest)).1.length < (deb :: rest).length := by
            omega
          rw [if_neg h2, dif_pos hp]
          rw [ih _ (by omega)]
          simp [List.append_assoc]

/-- C4: across every executed iteration of the install/configure loop,
exactly the artifacts the pass reported as failed are retained: the deletion
log of the final outcome is the initial log followed, iteration by
iteration, by every artifact of that iteration's remaining list that is not
in its failed-artifact list — including the final stalling (or
assert-failing) iteration, so a stall aborts only after the artifacts that
succeeded were already deleted. -/
theorem C4_deletions_exactly_non_failed_artifacts
    (pass_fn : List String → List String × List String)
    (debs : List String) (fp : Option (List String)) (del : List String) :
    (install_configure_loop pass_fn debs fp del).deletedLog =
      del ++ ((loopTrace pass_fn debs).map
        (fun r => r.filter (fun d => d ∉ (pass_fn r).1))).flatten :=
  install_configure_loop_deleted_aux pass_fn debs.length debs le_rfl fp del

/-- `max_error_count` as computed in `_install_and_configure`
(crossgrader.py line 399): `max(50, len(debs_to_install) * 2)`. -/
def max_error_count (debs_to_install : List String) : Nat :=
  max 50 (debs_to_install.length * 2)

/-- The `--abort-after` option string built from `max_error_count`
(crossgrader.py line 401). -/
def error_count_option (debs_to_install : List String) : String :=
  "--abort-after=" ++ toString (max_error_count debs_to_install)

/-- The argv of the `dpkg -i` invocation of one install pass
(crossgrader.py line 403). -/
def dpkg_install_cmd (debs_to_install : List String) : List String :=
  ["dpkg", "-i", error_count_option debs_to_install] ++ debs_to_install

/-- The argv of the `dpkg --configure -a` invocation of the same pass
(crossgrader.py line 411). -/
def dpkg_configure_cmd (debs_to_install : List String) : List String :=
  ["dpkg", "--configure", "-a", error_count_option debs_to_install]

/-- C9: for a pass over n artifacts, both dpkg invocations of the pass
carry an abort-after ceiling equal to max(50, 2 × n). -/
theorem C9_abort_after_ceiling (debs_to_install : List String) :
    error_count_option debs_to_install =
      "--abort-after=" ++ toString (max 50 (2 * debs_to_install.length)) ∧
    error_count_option debs_to_install ∈ dpkg_install_cmd debs_to_install ∧
    error_count_option debs_to_install ∈ dpkg_configure_cmd debs_to_install := by
  refine ⟨?_, by simp [dpkg_install_cmd], by simp [dpkg_configure_cmd]⟩
  rw [error_count_option, max_error_count, Nat.mul_comm]

/-- The fields `_is_first_stage_target` reads from one version record of a
python-apt `Package` (its `installed` version). -/
structure VersionInfo where
  architecture : String
  priority : String

/-- The slice of a python-apt `Package` object read by
`_is_first_stage_target`: `installed` is `None` exactly when
`package.is_installed` is false. -/
structure Package where
  installed : Option VersionInfo

/-- Shallow embedding of `_is_first_stage_target` (crossgrader.py lines
616-637): not installed → False; installed architecture `all` or the
target architecture → False; installed priority `required` or `important`
→ True; otherwise False. -/
def is_first_stage_target (target_arch : String) (package : Package) : Bool :=
  match package.installed with
  | none => false
  | some installed =>
    if installed.architecture = "all" ∨ installed.architecture = target_arch then
      false
    else if installed.priority = "required" ∨ installed.priority = "important" then
      true
    else
      false

/-- C5: `_is_first_stage_target` holds exactly for installed packages whose
installed architecture is neither `all` nor the target architecture and
whose installed priority is `required` or `important`; in particular a
package installed in `all` or the target architecture is excluded whatever
its priority. -/
theorem C5_first_stage_target_characterization (target_arch : String)
    (package : Package) :
    (is_first_stage_target target_arch package = true ↔
      ∃ installed, package.installed = some installed ∧
        installed.architecture ≠ "all" ∧
        installed.architecture ≠ target_arch ∧
        (installed.priority = "required" ∨ installed.priority = "important")) ∧
    (∀ installed, package.installed = some installed →
      (installed.architecture = "all" ∨ installed.architecture = target_arch) →
      is_first_stage_target target_arch package = false) := by
  constructor
  · match hp : package.installed with
    | none => simp [is_first_stage_target, hp]
    | some installed =>
      simp only [is_first_stage_target, hp, Option.some.injEq]
      by_cases harch : installed.architecture = "all" ∨
          installed.architecture = target_arch
      · simp only [if_pos harch, Bool.false_eq_true, false_iff]
        rintro ⟨i, rfl, h1, h2, _⟩
        rcases harch with h | h
        · exact h1 h
        · exact h2 h
      · rw [if_neg harch]
        push_neg at harch
        by_cases hprio : installed.priority = "required" ∨
            installed.priority = "important"
        · simp only [if_pos hprio, true_iff]
          exact ⟨installed, rfl, harch.1, harch.2, hprio⟩
        · simp only [if_neg hprio, Bool.false_eq_true, false_iff]
          rintro ⟨i, rfl, _, _, hp⟩
          exact hprio hp
  · intro installed hp harch
    simp [is_first_stage_target, hp, harch]

/-- The slice of a python-apt `Package` read by
`_get_initramfs_hook_packages`: its short name, whether it is installed,
and the architectures of its installed and candidate versions. -/
structure HookPackage where
  shortname : String
  is_installed : Bool
  installed_arch : String
  candidate_arch : String

/-- One iteration of the `for package, hook_file in hook_pkgs` loop of
`_get_initramfs_hook_packages` (crossgrader.py lines 652-670): a hook file
not (or no longer) in `unaccounted_hooks` is skipped; otherwise it is
discarded from `unaccounted_hooks`, and the package's short name is added
to `out_names` when the relevant architecture is neither `all` nor the
target architecture. -/
def hook_step (target_arch : String) (state : Finset String × Finset String)
    (entry : HookPackage × String) : Finset String × Finset String :=
  if entry.2 ∉ state.1 then
    state
  else
    let architecture :=
      if entry.1.is_installed then entry.1.installed_arch
      else entry.1.candidate_arch
    if architecture ≠ "all" ∧ architecture ≠ target_arch then
      (state.1.erase entry.2, insert entry.1.shortname state.2)
    else
      (state.1.erase entry.2, state.2)

/-- Shallow embedding of `_get_initramfs_hook_packages` (crossgrader.py
lines 639-675).  `disk_hooks` models the glob of
`/usr/share/initramfs-tools/hooks/*`; `hook_pkgs` models the
`(package, hook_file)` pairs returned by the reverse file lookup.  The
raised `RemnantInitramfsHooksError` is `Except.error` carrying the final
`unaccounted_hooks` set. -/
def get_initramfs_hook_packages (target_arch : String)
    (disk_hooks : Finset String) (hook_pkgs : List (HookPackage × String))
    (ignore_initramfs_remnants : Bool) :
    Except (Finset String) (Finset String) :=
  if ((hook_pkgs.foldl (hook_step target_arch) (disk_hooks, ∅)).1.Nonempty ∧
      ¬ ignore_initramfs_remnants) then
    .error (hook_pkgs.foldl (hook_step target_arch) (disk_hooks, ∅)).1
  else
    .ok (hook_pkgs.foldl (hook_step target_arch) (disk_hooks, ∅)).2

lemma hook_step_fst (target_arch : String) (state : Finset String × Finset String)
    (entry : HookPackage × String) :
    (hook_step target_arch state entry).1 = state.1.erase entry.2 := by
  rw [hook_step]
  by_cases hmem : entry.2 ∈ state.1
  · rw [if_neg (by simpa using hmem)]
    simp only [apply_ite Prod.fst, ite_self]
  · rw [if_pos hmem, Finset.erase_eq_of_not_mem hmem]

lemma hook_fold_fst (target_arch : String) (hook_pkgs : List (HookPackage × String)) :
    ∀ state : Finset String × Finset String,
      (hook_pkgs.foldl (hook_step target_arch) state).1 =
        state.1 \ (hook_pkgs.map Prod.snd).toFinset := by
  induction hook_pkgs with
  | nil => intro state; simp
  | cons entry rest ih =>
    intro state
    rw [List.foldl_cons, ih, hook_step_fst]
    ext x
    simp only [Finset.mem_sdiff, Finset.mem_erase, List.map_cons,
      List.toFinset_cons, Finset.mem_insert, List.mem_toFinset]
    tauto

/-- C6: `_get_initramfs_hook_packages` raises `RemnantInitramfsHooksError`
carrying exactly the hook files not attributed to any known package if and
only if that set is non-empty and `ignore_initramfs_remnants` is false;
with the flag set it returns its package-name set normally, and when every
hook is attributed it never raises. -/
theorem C6_remnant_hooks_error_characterization (target_arch : String)
    (disk_hooks : Finset String) (hook_pkgs : List (HookPackage × String))
    (ignore_initramfs_remnants : Bool) :
    ((∃ S, get_initramfs_hook_packages target_arch disk_hooks hook_pkgs
        ignore_initramfs_remnants = .error S) ↔
      ((disk_hooks \ (hook_pkgs.map Prod.snd).toFinset).Nonempty ∧
        ignore_initramfs_remnants = false)) ∧
    (∀ S, get_initramfs_hook_packages target_arch disk_hooks hook_pkgs
        ignore_initramfs_remnants = .error S →
      S = disk_hooks \ (hook_pkgs.map Prod.snd).toFinset) ∧
    (ignore_initramfs_remnants = true →
      ∃ out, get_initramfs_hook_packages target_arch disk_hooks hook_pkgs
        ignore_initramfs_remnants = .ok out) ∧
    (disk_hooks \ (hook_pkgs.map Prod.snd).toFinset = ∅ →
      ∃ out, get_initramfs_hook_packages target_arch disk_hooks hook_pkgs
        ignore_initramfs_remnants = .ok out) := by
  have hfst := hook_fold_fst target_arch hook_pkgs (disk_hooks, ∅)
  refine ⟨?_, ?_, ?_, ?_⟩
  · constructor
    · rintro ⟨S, hS⟩
      rw [get_initramfs_hook_packages] at hS
      by_cases hcond : ((hook_pkgs.foldl (hook_step target_arch)
          (disk_hooks, ∅)).1.Nonempty ∧ ¬ ignore_initramfs_remnants)
      · rw [hfst] at hcond
        exact ⟨hcond.1, by simpa using hcond.2⟩
      · rw [if_neg hcond] at hS
        exact absurd hS (by simp)
    · rintro ⟨hne, hflag⟩
      rw [get_initramfs_hook_packages, if_pos (by rw [hfst]; exact ⟨hne, by simp [hflag]⟩)]
      exact ⟨_, rfl⟩
  · intro S hS
    rw [get_initramfs_hook_packages] at hS
    by_cases hcond : ((hook_pkgs.foldl (hook_step target_arch)
        (disk_hooks, ∅)).1.Nonempty ∧ ¬ ignore_initramfs_remnants)
    · rw [if_pos hcond] at hS
      rw [← hfst]
      exact (Except.error.inj hS).symm
    · rw [if_neg hcond] at hS
      exact absurd hS (by simp)
  · intro hflag
    rw [get_initramfs_hook_packages, if_neg (by simp [hflag])]
    exact ⟨_, rfl⟩
  · intro hempty
    rw [get_initramfs_hook_packages,
      if_neg (by rw [hfst, hempty]; simp [Finset.not_nonempty_empty])]
    exact ⟨_, rfl⟩

/-- One of the two output streams of the child process. -/
inductive ProcStream where
  | stdout
  | stderr
  deriving DecidableEq, Repr

/-- The observable behaviour of the child process handed to `tee_process`
(utils/cmd.py): its exit code, whether each output handle is a readable
pipe (`process.stdout` / `process.stderr` is not `None`), and the non-empty
chunks successive non-blocking reads return, in read order. -/
structure TeeProc where
  exit_code : Int
  stdout_present : Bool
  stderr_present : Bool
  reads : List (ProcStream × String)

/-- The effect of `write_contents` on `output_bufs` for one chunk of data
read from one stream (utils/cmd.py lines 26-47): the chunk is appended to
that stream's buffer list. -/
def write_contents_step (bufs : List String × List String)
    (ev : ProcStream × String) : List String × List String :=
  match ev.1 with
  | .stdout => (bufs.1 ++ [ev.2], bufs.2)
  | .stderr => (bufs.1, bufs.2 ++ [ev.2])

/-- Shallow embedding of `tee_process` (utils/cmd.py lines 8-81): the read
loop accumulates chunks per stream into `output_bufs`; after the process
exits, a present stream's captured text is the separator-free join of its
buffer and an absent stream contributes `[]` (so the empty string) —
`output_bufs[...] if process.stdout is not None else []`. -/
def tee_process (p : TeeProc) : Int × String × String :=
  (p.exit_code,
   String.join (if p.stdout_present then
     (p.reads.foldl write_contents_step ([], [])).1 else []),
   String.join (if p.stderr_present then
     (p.reads.foldl write_contents_step ([], [])).2 else []))

lemma write_contents_foldl (reads : List (ProcStream × String)) :
    ∀ bufs : List String × List String,
      reads.foldl write_contents_step bufs =
        (bufs.1 ++ (reads.filter (fun ev => ev.1 == ProcStream.stdout)).map Prod.snd,
         bufs.2 ++ (reads.filter (fun ev => ev.1 == ProcStream.stderr)).map Prod.snd) := by
  induction reads with
  | nil => intro bufs; simp
  | cons ev rest ih =>
    intro bufs
    match ev with
    | (.stdout, data) =>
      rw [List.foldl_cons, ih]
      simp [write_contents_step]
    | (.stderr, data) =>
      rw [List.foldl_cons, ih]
      simp [write_contents_step]

/-- C7: `tee_process` returns the exit code together with, per stream, the
in-order concatenation of every chunk read from that stream; a stream whose
handle is absent yields the empty string (and the function is total — no
error path). -/
theorem C7_tee_process_captures_in_order (p : TeeProc)
    (hpresent : ∀ ev ∈ p.reads,
      (ev.1 = ProcStream.stdout → p.stdout_present = true) ∧
      (ev.1 = ProcStream.stderr → p.stderr_present = true)) :
    tee_process p =
      (p.exit_code,
       String.join ((p.reads.filter
         (fun ev => ev.1 == ProcStream.stdout)).map Prod.snd),
       String.join ((p.reads.filter
         (fun ev => ev.1 == ProcStream.stderr)).map Prod.snd)) ∧
    (p.stdout_present = false → (tee_process p).2.1 = "") ∧
    (p.stderr_present = false → (tee_process p).2.2 = "") := by
  have hbufs := write_contents_foldl p.reads ([], [])
  refine ⟨?_, ?_, ?_⟩
  · rw [tee_process, hbufs]
    by_cases ho : p.stdout_present <;> by_cases he : p.stderr_present
    · simp [ho, he]
    · simp only [ho, he, if_true, if_false, List.nil_append]
      have : p.reads.filter (fun ev => ev.1 == ProcStream.stderr) = [] := by
        rw [List.filter_eq_nil_iff]
        intro ev hev hbe
        have := (hpresent ev hev).2 (by simpa using hbe)
        simp [this] at he
      rw [this]
      rfl
    · simp only [ho, he, if_true, if_false, List.nil_append]
      have : p.reads.filter (fun ev => ev.1 == ProcStream.stdout) = [] := by
        rw [List.filter_eq_nil_iff]
        intro ev hev hbe
        have := (hpresent ev hev).1 (by simpa using hbe)
        simp [this] at ho
      rw [this]
      rfl
    · have h1 : p.reads.filter (fun ev => ev.1 == ProcStream.stdout) = [] := by
        rw [List.filter_eq_nil_iff]
        intro ev hev hbe
        have := (hpresent ev hev).1 (by simpa using hbe)
        simp [this] at ho
      have h2 : p.reads.filter (fun ev => ev.1 == ProcStream.stderr) = [] := by
        rw [List.filter_eq_nil_iff]
        intro ev hev hbe
        have := (hpresent ev hev).2 (by simpa using hbe)
        simp [this] at he
      simp only [ho, he, if_false, h1, h2]
      rfl
  · intro h
    rw [tee_process]
    simp [h]
    rfl
  · intro h
    rw [tee_process]
    simp [h]
    rfl

/-- Witness for C7 at a concrete process: both handles present, three
chunks read in the order stdout `a`, stderr `b`, stdout `c`. -/
theorem C7_tee_process_witness :
    tee_process ⟨0, true, true,
        [(ProcStream.stdout, "a"), (ProcStream.stderr, "b"),
         (ProcStream.stdout, "c")]⟩ =
      (0,
       String.join (([((ProcStream.stdout : ProcStream), "a"),
         (ProcStream.stderr, "b"), (ProcStream.stdout, "c")].filter
           (fun ev => ev.1 == ProcStream.stdout)).map Prod.snd),
       String.join (([((ProcStream.stdout : ProcStream), "a"),
         (ProcStream.stderr, "b"), (ProcStream.stdout, "c")].filter
           (fun ev => ev.1 == ProcStream.stderr)).map Prod.snd)) ∧
    ((true : Bool) = false →
      (tee_process ⟨0, true, true,
        [(ProcStream.stdout, "a"), (ProcStream.stderr, "b"),
         (ProcStream.stdout, "c")]⟩).2.1 = "") ∧
    ((true : Bool) = false →
      (tee_process ⟨0, true, true,
        [(ProcStream.stdout, "a"), (ProcStream.stderr, "b"),
         (ProcStream.stdout, "c")]⟩).2.2 = "") :=
  C7_tee_process_captures_in_order
    ⟨0, true, true,
      [(ProcStream.stdout, "a"), (ProcStream.stderr, "b"),
       (ProcStream.stdout, "c")]⟩
    (by decide)

/-- Python's `in` operator on strings: `sub in s`. -/
def pyInStr (sub s : String) : Bool := decide (sub.data <:+: s.data)

/-- Python's `str.lower()`. -/
def pyLower (s : String) : String := ⟨s.data.map Char.toLower⟩

/-- `Crossgrader.DPKG_INFO_DIR`. -/
def DPKG_INFO_DIR : String := "/var/lib/dpkg/info"

/-- External commands `_fix_dpkg_errors` runs, in program order. -/
inductive FixAction where
  | aptFixBrokenYes
  | dpkgStatus (package : String)
  | dpkgQueryCoinstalled (short_name : String)
  | dpkgForceRemove (package : String)
  | removePrermScript (path : String)
  | dpkgForceRemoveRetry (package : String)
  | dpkgConfigureAll
  | aptFixBroken
  deriving DecidableEq, Repr

/-- The environment `_fix_dpkg_errors` runs against: exit codes of the
external commands, `dpkg -s` output per package, `dpkg-query` coinstalled
lists per short name, prerm-script existence, and the operator's
interactive answers. -/
structure FixEnv where
  apt_fix_yes_ret : Int
  dpkg_status : String → String
  coinstalled : String → List String
  remove_ret : String → Int
  prerm_isfile : String → Bool
  user_input : String → String
  remove_retry_ret : String → Int
  configure_ret : Int
  apt_fix_ret : Int

/-- The body of the `for coinstalled_package in coinstalled` loop of
`_fix_dpkg_errors` (crossgrader.py lines 316-342), returning the external
commands it runs for one coinstalled package. -/
def handle_coinstalled (env : FixEnv) (package coinstalled_package : String) :
    List FixAction :=
  if coinstalled_package = package then
    []
  else if env.remove_ret coinstalled_package = 0 then
    [.dpkgForceRemove coinstalled_package]
  else
    if env.prerm_isfile (DPKG_INFO_DIR ++ "/" ++ coinstalled_package ++ ".prerm") then
      if pyLower (env.user_input coinstalled_package) = "y" ∨
          pyLower (env.user_input coinstalled_package) = "" then
        [.dpkgForceRemove coinstalled_package,
         .removePrermScript (DPKG_INFO_DIR ++ "/" ++ coinstalled_package ++ ".prerm"),
         .dpkgForceRemoveRetry coinstalled_package]
      else
        [.dpkgForceRemove coinstalled_package]
    else
      [.dpkgForceRemove coinstalled_package]

/-- The body of the `for package in packages` loop of `_fix_dpkg_errors`
(crossgrader.py lines 300-342) for one package: query its status, skip it
unless `Multi-Arch: same`, assert it carries an architecture qualifier
(`none` models the failing assert), then enumerate and handle its
coinstalled siblings. -/
def fix_one_package (env : FixEnv) (package : String) : Option (List FixAction) :=
  if pyInStr "Multi-Arch: same" (env.dpkg_status package) = false then
    some [.dpkgStatus package]
  else if package.data.contains ':' = false then
    none
  else
    some ([.dpkgStatus package,
      .dpkgQueryCoinstalled ⟨package.data.takeWhile (fun c => c ≠ ':')⟩] ++
      ((env.coinstalled ⟨package.data.takeWhile (fun c => c ≠ ':')⟩).map
        (handle_coinstalled env package)).flatten)

/-- The whole `for package in packages` loop; `none` propagates a failing
assert. -/
def fix_packages_loop (env : FixEnv) : List String → Option (List FixAction)
  | [] => some []
  | package :: rest =>
    match fix_one_package env package with
    | none => none
    | some log =>
      match fix_packages_loop env rest with
      | none => none
      | some rest_log => some (log ++ rest_log)

/-- Shallow embedding of `_fix_dpkg_errors` (crossgrader.py lines 276-354),
returning its boolean result paired with the external commands run, in
order; `none` models an uncaught `AssertionError`. -/
def fix_dpkg_errors (env : FixEnv) (packages : List String) :
    Option (Bool × List FixAction) :=
  if packages.isEmpty then
    some (true, [])
  else if env.apt_fix_yes_ret = 0 then
    some (true, [.aptFixBrokenYes])
  else
    match fix_packages_loop env packages with
    | none => none
    | some loop_log =>
      if env.configure_ret ≠ 0 then
        some (false, [FixAction.aptFixBrokenYes] ++ loop_log ++ [.dpkgConfigureAll])
      else if env.apt_fix_ret = 0 then
        some (true, [FixAction.aptFixBrokenYes] ++ loop_log ++
          [.dpkgConfigureAll, .aptFixBroken])
      else
        some (false, [FixAction.aptFixBrokenYes] ++ loop_log ++
          [.dpkgConfigureAll, .aptFixBroken])

/-- C10: handed an empty failed-package set, `_fix_dpkg_errors` returns
True immediately and runs no external command at all — no dependency fix,
no forced removal, no reconfiguration. -/
theorem C10_fix_dpkg_errors_empty_is_noop (env : FixEnv) :
    fix_dpkg_errors env [] = some (true, []) :=
  rfl

end Crossgrader
